import Mathlib

/-!
Verification of the `GitHubTool` remote-resource facade (src/tools/github.ts).

The TypeScript class is shallowly embedded as pure Lean functions,
parameterized over an `Octokit` environment record that stands for the
remote API client, the base64 decoder (`Buffer`) and the global `fetch`.
Thrown JavaScript `Error` values are modelled as the `String` error channel
of `Except` (an `Error` is observably its message), and the `GitHubError`
shape caught by `handleError` keeps its optional `status` and optional
`response.data.message` fields.
-/

/-- The `Repository`-like reshaped entry inside a `CodeSearchResult`. -/
structure RepoSummary where
  id : Nat
  name : String
  full_name : String
  html_url : String
deriving Repr, DecidableEq

/-- The `FileContent` interface: a single retrieved file. -/
structure FileContent where
  name : String
  path : String
  content : String
  encoding : String
  size : Nat
  sha : String
deriving Repr, DecidableEq

/-- The `DirectoryContent` interface: one entry of a directory listing.
`type` is the runtime string (`"file"`, `"dir"`, `"symlink"`, `"submodule"`). -/
structure DirectoryContent where
  name : String
  path : String
  type : String
  size : Option Nat
  sha : String
  url : String
  html_url : Option String
  download_url : Option String
deriving Repr, DecidableEq

/-- The `CodeSearchResult` interface. -/
structure CodeSearchResult where
  name : String
  path : String
  sha : String
  url : String
  html_url : String
  repository : RepoSummary
  score : Nat
deriving Repr, DecidableEq

/-- The `RepositoryArchive` interface: a resolved archive download handle. -/
structure RepositoryArchive where
  downloadUrl : String
  filename : String
  ref : String
  format : String
deriving Repr, DecidableEq

/-- The `GitHubError` shape consumed by `handleError`: a JS error with its
`message`, an optional HTTP `status`, and the optional
`error.response?.data?.message` text. -/
structure GitHubError where
  message : String
  status : Option Nat := none
  responseMessage : Option String := none
deriving Repr, DecidableEq

/-- The raw single-file payload of the remote `getContent` endpoint
(`data` when it is not an array): the fields the facade reads. -/
structure RawFile where
  name : String
  path : String
  type : String
  content : String
  encoding : String
  size : Nat
  sha : String
deriving Repr, DecidableEq

/-- The remote `getContent` endpoint returns either a single object or an
array; the facade disambiguates with `Array.isArray`. -/
inductive ContentResponse where
  | single (data : RawFile)
  | listing (data : List DirectoryContent)
deriving Repr, DecidableEq

/-- The response object of the global `fetch` as used by
`downloadRepositoryArchive`: `ok`, `statusText` and the `arrayBuffer` bytes. -/
structure FetchResponse where
  ok : Bool
  statusText : String
  body : List Nat
deriving Repr, DecidableEq

/-- JavaScript `x || d` on an optional string: `undefined` and the empty
string (both falsy) fall back to the default. -/
def jsOr (s : Option String) (d : String) : String :=
  match s with
  | some v => if v = "" then d else v
  | none => d

/-- JavaScript truthiness of an optional string argument: present and
non-empty. -/
def jsTruthy (s : Option String) : Bool :=
  match s with
  | some v => v ≠ ""
  | none => false

/-- The environment of the facade: the octokit client endpoints it calls,
the base64-to-utf8 decoder (`Buffer.from(-, "base64").toString("utf-8")`)
and the global `fetch`.  Each endpoint either returns data or throws a
`GitHubError`. -/
structure Octokit where
  getContent : String → String → String → Option String → Except GitHubError ContentResponse
  searchCodeApi : String → Nat → Except GitHubError (List CodeSearchResult)
  downloadArchive : String → String → String → String → Except GitHubError String
  b64decode : String → String
  fetch : String → FetchResponse

namespace GitHubTool

/-- `GitHubTool.handleError`: normalize a caught error by its `status`
field into one of the surfaced message shapes. -/
def handleError (error : GitHubError) : String :=
  if error.status = some 404 then
    "Resource not found: " ++ jsOr error.responseMessage "Not found"
  else if error.status = some 401 then
    "Authentication failed. Check your GitHub token."
  else if error.status = some 403 then
    "Access forbidden: " ++ jsOr error.responseMessage "Forbidden"
  else if error.status = some 422 then
    "Invalid request: " ++ jsOr error.responseMessage "Unprocessable entity"
  else
    "GitHub API error: " ++ error.message

/-- The catch-block of an operation whose try-block may rethrow an error
already turned into a plain `Error` (message only, no `status`): casting it
to `GitHubError` leaves `status` and `response` undefined, so `handleError`
re-wraps its message. -/
def rewrapError {α : Type} : Except String α → Except String α
  | Except.error msg => Except.error (handleError { message := msg })
  | Except.ok v => Except.ok v

/-- `GitHubTool.getFileContent`: fetch the content at `path`; reject an
array response (directory) and a non-`"file"` single response; decode
base64 bodies; reshape into `FileContent`. -/
def getFileContent (oc : Octokit) (owner repo path : String) (ref : Option String) :
    Except String FileContent :=
  match oc.getContent owner repo path ref with
  | Except.error e => Except.error (handleError e)
  | Except.ok (ContentResponse.listing _) =>
    Except.error (handleError { message := "Path \"" ++ path ++ "\" is a directory, not a file" })
  | Except.ok (ContentResponse.single d) =>
    if d.type ≠ "file" then
      Except.error (handleError { message := "Path \"" ++ path ++ "\" is not a file" })
    else
      Except.ok { name := d.name, path := d.path,
                  content := if d.encoding = "base64" then oc.b64decode d.content else d.content,
                  encoding := d.encoding, size := d.size, sha := d.sha }

/-- `GitHubTool.downloadFile`: delegates to `getFileContent` unchanged. -/
def downloadFile (oc : Octokit) (owner repo path : String) (ref : Option String) :
    Except String FileContent :=
  getFileContent oc owner repo path ref

/-- `GitHubTool.getRepositoryContents`: fetch the content at `path`; reject
a single (non-array) response; reshape each listed item. -/
def getRepositoryContents (oc : Octokit) (owner repo path : String) (ref : Option String) :
    Except String (List DirectoryContent) :=
  match oc.getContent owner repo path ref with
  | Except.error e => Except.error (handleError e)
  | Except.ok (ContentResponse.single _) =>
    Except.error (handleError { message := "Path \"" ++ path ++ "\" is a file, not a directory" })
  | Except.ok (ContentResponse.listing data) =>
    Except.ok (data.map (fun item =>
      { name := item.name, path := item.path, type := item.type, size := item.size,
        sha := item.sha, url := item.url, html_url := item.html_url,
        download_url := item.download_url }))

/-- `GitHubTool.searchCode`'s query construction: append a `repo:` qualifier
when both `owner` and `repo` are truthy, a `user:` qualifier when only
`owner` is, and submit the query unchanged otherwise. -/
def searchCodeQuery (query : String) (owner repo : Option String) : String :=
  if jsTruthy owner && jsTruthy repo then
    query ++ " repo:" ++ owner.getD "" ++ "/" ++ repo.getD ""
  else if jsTruthy owner then
    query ++ " user:" ++ owner.getD ""
  else
    query

/-- `GitHubTool.searchCode`: submit the (possibly qualified) query with
`per_page` 30 and reshape the hits. -/
def searchCode (oc : Octokit) (query : String) (owner repo : Option String) :
    Except String (List CodeSearchResult) :=
  match oc.searchCodeApi (searchCodeQuery query owner repo) 30 with
  | Except.error e => Except.error (handleError e)
  | Except.ok items =>
    Except.ok (items.map (fun item =>
      { name := item.name, path := item.path, sha := item.sha, url := item.url,
        html_url := item.html_url,
        repository := { id := item.repository.id, name := item.repository.name,
                        full_name := item.repository.full_name,
                        html_url := item.repository.html_url },
        score := item.score }))

/-- The `'tarball' | 'zipball'` union of the archive operations.  An omitted
argument is modelled as `none`; the TypeScript parameter default makes it
`"zipball"`. -/
def defaultFormat (format : Option String) : String :=
  format.getD "zipball"

/-- `GitHubTool.getRepositoryArchive`: resolve the archive download URL via
the `downloadArchive` endpoint (with `ref || 'HEAD'`) and build the handle
with the suggested filename; the archive bytes are not fetched. -/
def getRepositoryArchive (oc : Octokit) (owner repo : String)
    (format : Option String) (ref : Option String) : Except String RepositoryArchive :=
  let fmt := defaultFormat format
  match oc.downloadArchive owner repo fmt (jsOr ref "HEAD") with
  | Except.error e => Except.error (handleError e)
  | Except.ok url =>
    Except.ok { downloadUrl := url,
                filename := repo ++ "-" ++ jsOr ref "HEAD" ++ "." ++
                  (if fmt = "zipball" then "zip" else "tar.gz"),
                ref := jsOr ref "HEAD",
                format := fmt }

/-- `GitHubTool.downloadRepositoryArchive`: resolve the handle, then `fetch`
the resolved URL; throw on a non-ok response, else return the bytes.  The
whole try-block is guarded by the shared catch, which re-wraps any error
(including the already-normalized one from `getRepositoryArchive`). -/
def downloadRepositoryArchive (oc : Octokit) (owner repo : String)
    (format : Option String) (ref : Option String) : Except String (List Nat) :=
  rewrapError (do
    let archive ← getRepositoryArchive oc owner repo format ref
    let response := oc.fetch archive.downloadUrl
    if !response.ok then
      Except.error ("Failed to download archive: " ++ response.statusText)
    else
      Except.ok response.body)

end GitHubTool

mutual

/-- `GitHubTool.downloadDirectory`: list `path`, then walk the listing.
The recursion of the source terminates on the remote's (acyclic) tree; the
embedding makes this explicit with a fuel argument that strictly bounds the
recursion depth (theorems supply enough fuel for the tree at hand). -/
def GitHubTool.downloadDirectory (oc : Octokit) (fuel : Nat)
    (owner repo path : String) (ref : Option String) : Except String (List FileContent) :=
  match fuel with
  | 0 => Except.error "recursion depth exhausted"
  | fuel + 1 =>
    GitHubTool.rewrapError (do
      let contents ← GitHubTool.getRepositoryContents oc owner repo path ref
      GitHubTool.downloadDirectoryLoop oc fuel owner repo ref contents)
termination_by (fuel, 0)

/-- The `for (const item of contents)` loop body of `downloadDirectory`:
fetch `"file"` entries via `downloadFile`, recurse into `"dir"` entries, and
skip every other kind, concatenating in listing order. -/
def GitHubTool.downloadDirectoryLoop (oc : Octokit) (fuel : Nat)
    (owner repo : String) (ref : Option String) :
    List DirectoryContent → Except String (List FileContent)
  | [] => Except.ok []
  | item :: rest =>
    if item.type = "file" then do
      let fileContent ← GitHubTool.downloadFile oc owner repo item.path ref
      let files ← GitHubTool.downloadDirectoryLoop oc fuel owner repo ref rest
      Except.ok (fileContent :: files)
    else if item.type = "dir" then do
      let dirFiles ← GitHubTool.downloadDirectory oc fuel owner repo item.path ref
      let files ← GitHubTool.downloadDirectoryLoop oc fuel owner repo ref rest
      Except.ok (dirFiles ++ files)
    else
      GitHubTool.downloadDirectoryLoop oc fuel owner repo ref rest
termination_by items => (fuel, items.length + 1)

end

mutual

/-- An acyclic directory tree as the remote presents it: the payload behind
one listing. -/
inductive FsTree : Type where
  | node : List FsEntry → FsTree

/-- One entry of a listing together with what the remote holds behind it:
a raw file, a subtree, or nothing to follow (symlink/submodule). -/
inductive FsEntry : Type where
  | fileE : DirectoryContent → RawFile → FsEntry
  | dirE : DirectoryContent → FsTree → FsEntry
  | skipE : DirectoryContent → FsEntry

end

/-- The listing metadata of an entry. -/
def FsEntry.meta : FsEntry → DirectoryContent
  | FsEntry.fileE m _ => m
  | FsEntry.dirE m _ => m
  | FsEntry.skipE m => m

/-- The listing a tree node presents. -/
def entriesMetas (es : List FsEntry) : List DirectoryContent :=
  es.map FsEntry.meta

mutual

/-- Depth of a tree: the number of nested listings on its deepest branch. -/
def treeDepth : FsTree → Nat
  | FsTree.node es => 1 + entriesDepth es

/-- Depth contributed by a list of entries. -/
def entriesDepth : List FsEntry → Nat
  | [] => 0
  | e :: es => max (entryDepth e) (entriesDepth es)

/-- Depth contributed by one entry. -/
def entryDepth : FsEntry → Nat
  | FsEntry.fileE _ _ => 0
  | FsEntry.skipE _ => 0
  | FsEntry.dirE _ sub => treeDepth sub

end

mutual

/-- The depth-first, listing-order sequence of files of a tree, as the
facade returns them (file bodies decoded with the environment's decoder). -/
def treeFiles (oc : Octokit) : FsTree → List FileContent
  | FsTree.node es => entriesFiles oc es

/-- Files collected from a list of entries, in order. -/
def entriesFiles (oc : Octokit) : List FsEntry → List FileContent
  | [] => []
  | e :: es => entryFiles oc e ++ entriesFiles oc es

/-- Files collected from one entry. -/
def entryFiles (oc : Octokit) : FsEntry → List FileContent
  | FsEntry.fileE _ raw =>
    [{ name := raw.name, path := raw.path,
       content := if raw.encoding = "base64" then oc.b64decode raw.content else raw.content,
       encoding := raw.encoding, size := raw.size, sha := raw.sha }]
  | FsEntry.dirE _ sub => treeFiles oc sub
  | FsEntry.skipE _ => []

end

mutual

/-- The paths of the file payloads of a tree, in depth-first listing
order. -/
def treePaths : FsTree → List String
  | FsTree.node es => entriesPaths es

/-- File paths collected from a list of entries. -/
def entriesPaths : List FsEntry → List String
  | [] => []
  | e :: es => entryPaths e ++ entriesPaths es

/-- File paths collected from one entry. -/
def entryPaths : FsEntry → List String
  | FsEntry.fileE _ raw => [raw.path]
  | FsEntry.dirE _ sub => treePaths sub
  | FsEntry.skipE _ => []

end

mutual

/-- `repTree oc owner repo ref path t`: the remote `oc` presents exactly
the tree `t` at `path` — the listing there is the metadata of the entries
of `t`, and each entry is backed as `repEntry` requires. -/
def repTree (oc : Octokit) (owner repo : String) (ref : Option String) :
    String → FsTree → Bool
  | path, FsTree.node es =>
    (match oc.getContent owner repo path ref with
     | Except.ok (ContentResponse.listing l) => decide (l = entriesMetas es)
     | _ => false)
    && repEntries oc owner repo ref es

/-- All entries of a listing are backed by the remote. -/
def repEntries (oc : Octokit) (owner repo : String) (ref : Option String) :
    List FsEntry → Bool
  | [] => true
  | e :: es => repEntry oc owner repo ref e && repEntries oc owner repo ref es

/-- One entry is backed by the remote: a `"file"` entry resolves (at the
entry's listed path) to its single raw file payload of type `"file"`; a
`"dir"` entry has its subtree at the listed path; any other entry is of
neither kind. -/
def repEntry (oc : Octokit) (owner repo : String) (ref : Option String) :
    FsEntry → Bool
  | FsEntry.fileE m raw =>
    decide (m.type = "file") && decide (raw.type = "file") &&
    (match oc.getContent owner repo m.path ref with
     | Except.ok (ContentResponse.single d) => decide (d = raw)
     | _ => false)
  | FsEntry.dirE m sub =>
    decide (m.type = "dir") && repTree oc owner repo ref m.path sub
  | FsEntry.skipE m =>
    decide (m.type ≠ "file") && decide (m.type ≠ "dir")

end

/-- Concrete raw file at the root of the sample remote. -/
def rawA : RawFile :=
  { name := "a.txt", path := "a.txt", type := "file", content := "aGk=",
    encoding := "base64", size := 2, sha := "sha-a" }

/-- Concrete raw file inside the sample subdirectory. -/
def rawB : RawFile :=
  { name := "b.txt", path := "sub/b.txt", type := "file", content := "world",
    encoding := "utf-8", size := 5, sha := "sha-b" }

/-- Listing entry for `rawA`. -/
def metaA : DirectoryContent :=
  { name := "a.txt", path := "a.txt", type := "file", size := some 2, sha := "sha-a",
    url := "u-a", html_url := some "h-a", download_url := some "d-a" }

/-- Listing entry for the sample subdirectory. -/
def metaSub : DirectoryContent :=
  { name := "sub", path := "sub", type := "dir", size := none, sha := "sha-s",
    url := "u-s", html_url := some "h-s", download_url := none }

/-- Listing entry of kind symlink (skipped by the traversal). -/
def metaLn : DirectoryContent :=
  { name := "ln", path := "ln", type := "symlink", size := none, sha := "sha-l",
    url := "u-l", html_url := none, download_url := none }

/-- Listing entry for `rawB`. -/
def metaB : DirectoryContent :=
  { name := "b.txt", path := "sub/b.txt", type := "file", size := some 5, sha := "sha-b",
    url := "u-b", html_url := none, download_url := none }

/-- Listing entry whose path resolves to nothing on the sample remote. -/
def metaMissing : DirectoryContent :=
  { name := "missing.txt", path := "missing", type := "file", size := some 1, sha := "sha-m",
    url := "u-m", html_url := none, download_url := none }

/-- The 404 error the sample remotes throw for unknown paths. -/
def e404 : GitHubError :=
  { message := "HttpError: Not Found", status := some 404, responseMessage := some "Not Found" }

/-- The decoded `FileContent` the facade returns for `rawA`. -/
def fcA : FileContent :=
  { name := "a.txt", path := "a.txt", content := "hi", encoding := "base64",
    size := 2, sha := "sha-a" }

/-- The `FileContent` the facade returns for `rawB` (already plain text). -/
def fcB : FileContent :=
  { name := "b.txt", path := "sub/b.txt", content := "world", encoding := "utf-8",
    size := 5, sha := "sha-b" }

/-- Sample remote: a depth-2 tree with two files, a subdirectory and a
symlink; the archive endpoint resolves, and the resolved URL fetches
successfully. -/
def oc0 : Octokit :=
  { getContent := fun _ _ path _ =>
      if path = "" then Except.ok (ContentResponse.listing [metaA, metaSub, metaLn])
      else if path = "a.txt" then Except.ok (ContentResponse.single rawA)
      else if path = "sub" then Except.ok (ContentResponse.listing [metaB])
      else if path = "sub/b.txt" then Except.ok (ContentResponse.single rawB)
      else Except.error e404,
    searchCodeApi := fun _ _ => Except.ok [],
    downloadArchive := fun _ repo fmt ref =>
      Except.ok ("https://codeload/" ++ repo ++ "/" ++ fmt ++ "/" ++ ref),
    b64decode := fun s => if s = "aGk=" then "hi" else s,
    fetch := fun url =>
      if url = "https://codeload/r/zipball/HEAD" then
        { ok := true, statusText := "OK", body := [80, 75, 3, 4] }
      else
        { ok := false, statusText := "Not Found", body := [] } }

/-- Sample remote whose root listing names a file the remote cannot then
deliver (it 404s), and whose fetch always fails. -/
def oc1 : Octokit :=
  { getContent := fun _ _ path _ =>
      if path = "" then Except.ok (ContentResponse.listing [metaA, metaMissing])
      else if path = "a.txt" then Except.ok (ContentResponse.single rawA)
      else Except.error e404,
    searchCodeApi := fun _ _ => Except.ok [],
    downloadArchive := fun _ repo fmt ref =>
      Except.ok ("https://codeload/" ++ repo ++ "/" ++ fmt ++ "/" ++ ref),
    b64decode := fun s => if s = "aGk=" then "hi" else s,
    fetch := fun _ => { ok := false, statusText := "Forbidden", body := [] } }

/-- Sample remote whose root listing holds exactly one file entry, which
then 404s when fetched. -/
def oc2 : Octokit :=
  { getContent := fun _ _ path _ =>
      if path = "" then Except.ok (ContentResponse.listing [metaMissing])
      else Except.error e404,
    searchCodeApi := fun _ _ => Except.ok [],
    downloadArchive := fun _ repo fmt ref =>
      Except.ok ("https://codeload/" ++ repo ++ "/" ++ fmt ++ "/" ++ ref),
    b64decode := fun s => s,
    fetch := fun _ => { ok := false, statusText := "Forbidden", body := [] } }

/-- The sample tree `oc0` presents at the root. -/
def t0 : FsTree :=
  FsTree.node
    [FsEntry.fileE metaA rawA,
     FsEntry.dirE metaSub (FsTree.node [FsEntry.fileE metaB rawB]),
     FsEntry.skipE metaLn]

/-- The field-by-field reshaping of a listing item rebuilds the same
record. -/
theorem map_reshape_id (l : List DirectoryContent) :
    l.map (fun item =>
      ({ name := item.name, path := item.path, type := item.type, size := item.size,
         sha := item.sha, url := item.url, html_url := item.html_url,
         download_url := item.download_url } : DirectoryContent)) = l := by
  induction l with
  | nil => rfl
  | cons x xs ih => simp [ih]

/-- `getRepositoryContents` on a listing response returns the listed
entries unchanged. -/
theorem getRepositoryContents_listing (oc : Octokit) (owner repo path : String)
    (ref : Option String) (l : List DirectoryContent)
    (h : oc.getContent owner repo path ref = Except.ok (ContentResponse.listing l)) :
    GitHubTool.getRepositoryContents oc owner repo path ref = Except.ok l := by
  unfold GitHubTool.getRepositoryContents
  rw [h]
  simp [map_reshape_id]

mutual

/-- The path of each returned file is the path of its raw payload. -/
theorem treeFiles_paths (oc : Octokit) :
    ∀ t : FsTree, (treeFiles oc t).map (fun f => f.path) = treePaths t
  | FsTree.node es => by
    rw [treeFiles, treePaths, entriesFiles_paths oc es]

/-- Path projection over the files of an entry list. -/
theorem entriesFiles_paths (oc : Octokit) :
    ∀ es : List FsEntry, (entriesFiles oc es).map (fun f => f.path) = entriesPaths es
  | [] => by rw [entriesFiles, entriesPaths]; rfl
  | e :: es => by
    rw [entriesFiles, entriesPaths, List.map_append, entryFiles_paths oc e,
      entriesFiles_paths oc es]

/-- Path projection over the files of one entry. -/
theorem entryFiles_paths (oc : Octokit) :
    ∀ e : FsEntry, (entryFiles oc e).map (fun f => f.path) = entryPaths e
  | FsEntry.fileE m raw => by rw [entryFiles, entryPaths]; rfl
  | FsEntry.dirE m sub => by rw [entryFiles, entryPaths, treeFiles_paths oc sub]
  | FsEntry.skipE m => by rw [entryFiles, entryPaths]; rfl

end

/-- A backed `"file"` entry is fetched by `downloadFile` exactly as
`entryFiles` describes. -/
theorem downloadFile_of_repEntry (oc : Octokit) (owner repo : String) (ref : Option String)
    (m : DirectoryContent) (raw : RawFile)
    (h : repEntry oc owner repo ref (FsEntry.fileE m raw) = true) :
    GitHubTool.downloadFile oc owner repo m.path ref
      = Except.ok { name := raw.name, path := raw.path,
                    content := if raw.encoding = "base64" then oc.b64decode raw.content
                               else raw.content,
                    encoding := raw.encoding, size := raw.size, sha := raw.sha } := by
  rw [repEntry] at h
  simp only [Bool.and_eq_true, decide_eq_true_eq] at h
  obtain ⟨⟨hm, hraw⟩, hmatch⟩ := h
  unfold GitHubTool.downloadFile GitHubTool.getFileContent
  cases hg : oc.getContent owner repo m.path ref with
  | error e => rw [hg] at hmatch; simp at hmatch
  | ok resp =>
    cases resp with
    | listing l => rw [hg] at hmatch; simp at hmatch
    | single d =>
      rw [hg] at hmatch
      simp only [decide_eq_true_eq] at hmatch
      subst hmatch
      simp [hraw]

/-- Processing a backed entry list with the loop of `downloadDirectory`
yields exactly the depth-first file sequence, provided every nested
directory is handled correctly by `downloadDirectory` at the given fuel. -/
theorem downloadDirectoryLoop_entries (oc : Octokit) (owner repo : String)
    (ref : Option String) (fuel : Nat)
    (IH : ∀ path t, repTree oc owner repo ref path t = true → treeDepth t ≤ fuel →
      GitHubTool.downloadDirectory oc fuel owner repo path ref = Except.ok (treeFiles oc t)) :
    ∀ es : List FsEntry, repEntries oc owner repo ref es = true → entriesDepth es ≤ fuel →
      GitHubTool.downloadDirectoryLoop oc fuel owner repo ref (entriesMetas es)
        = Except.ok (entriesFiles oc es) := by
  intro es
  induction es with
  | nil =>
    intro _ _
    rw [entriesMetas, entriesFiles, List.map_nil, GitHubTool.downloadDirectoryLoop]
  | cons e es ih =>
    intro hrep hdep
    rw [repEntries, Bool.and_eq_true] at hrep
    obtain ⟨hre, hres⟩ := hrep
    rw [entriesDepth] at hdep
    have hde : entryDepth e ≤ fuel := le_trans (le_max_left _ _) hdep
    have hdes : entriesDepth es ≤ fuel := le_trans (le_max_right _ _) hdep
    have hrest := ih hres hdes
    rw [entriesMetas] at hrest ⊢
    cases e with
    | fileE m raw =>
      have hm : m.type = "file" := by
        rw [repEntry] at hre
        simp only [Bool.and_eq_true, decide_eq_true_eq] at hre
        exact hre.1.1
      rw [List.map_cons, GitHubTool.downloadDirectoryLoop, FsEntry.meta]
      rw [if_pos hm, downloadFile_of_repEntry oc owner repo ref m raw hre]
      rw [entriesFiles, entryFiles]
      simp only [Bind.bind, Except.bind]
      rw [hrest]
      rfl
    | dirE m sub =>
      have hm : m.type = "dir" ∧ repTree oc owner repo ref m.path sub = true := by
        rw [repEntry] at hre
        simp only [Bool.and_eq_true, decide_eq_true_eq] at hre
        exact hre
      have hsub : GitHubTool.downloadDirectory oc fuel owner repo m.path ref
          = Except.ok (treeFiles oc sub) := by
        apply IH m.path sub hm.2
        rw [entryDepth] at hde
        exact hde
      rw [List.map_cons, GitHubTool.downloadDirectoryLoop, FsEntry.meta]
      rw [if_neg (by rw [hm.1]; decide), if_pos hm.1, hsub]
      rw [entriesFiles, entryFiles]
      simp only [Bind.bind, Except.bind]
      rw [hrest]
    | skipE m =>
      have hm : m.type ≠ "file" ∧ m.type ≠ "dir" := by
        rw [repEntry] at hre
        simp only [Bool.and_eq_true, decide_eq_true_eq] at hre
        exact hre
      rw [List.map_cons, GitHubTool.downloadDirectoryLoop, FsEntry.meta]
      rw [if_neg hm.1, if_neg hm.2, entriesFiles, entryFiles, List.nil_append]
      exact hrest

/-- `downloadDirectory`, run with fuel at least the depth of the tree the
remote presents, returns exactly the depth-first listing-order file
sequence of that tree. -/
theorem downloadDirectory_repTree (oc : Octokit) (owner repo : String)
    (ref : Option String) :
    ∀ (fuel : Nat) (path : String) (t : FsTree),
      repTree oc owner repo ref path t = true → treeDepth t ≤ fuel →
      GitHubTool.downloadDirectory oc fuel owner repo path ref
        = Except.ok (treeFiles oc t) := by
  intro fuel
  induction fuel with
  | zero =>
    intro path t _ hdep
    cases t with
    | node es => rw [treeDepth] at hdep; omega
  | succ fuel ih =>
    intro path t hrep hdep
    cases t with
    | node es =>
      rw [repTree, Bool.and_eq_true] at hrep
      obtain ⟨hmatch, hres⟩ := hrep
      have hg : oc.getContent owner repo path ref
          = Except.ok (ContentResponse.listing (entriesMetas es)) := by
        cases hg : oc.getContent owner repo path ref with
        | error e => rw [hg] at hmatch; simp at hmatch
        | ok resp =>
          cases resp with
          | single d => rw [hg] at hmatch; simp at hmatch
          | listing l =>
            rw [hg] at hmatch
            simp only [decide_eq_true_eq] at hmatch
            rw [hmatch]
      have hloop := downloadDirectoryLoop_entries oc owner repo ref fuel ih es hres
        (by rw [treeDepth] at hdep; omega)
      rw [GitHubTool.downloadDirectory]
      simp only [Bind.bind]
      rw [getRepositoryContents_listing oc owner repo path ref (entriesMetas es) hg]
      simp only [Except.bind]
      rw [hloop, treeFiles]
      rfl

/-- Claim C10: `downloadFile` and `getFileContent` are extensionally equal:
for every owner, name, path and ref they return the same result or fail
with the same error. -/
theorem claim_C10_downloadFile_eq_getFileContent :
    ∀ (oc : Octokit) (owner repo path : String) (ref : Option String),
      GitHubTool.downloadFile oc owner repo path ref
        = GitHubTool.getFileContent oc owner repo path ref :=
  fun _ _ _ _ _ => rfl

/-- Claim C3: the surfaced error is determined solely by the status class of
the error the operation catches: 404 maps to the NotFound message carrying
the remote text (generic fallback), 401 to a fixed AuthenticationFailed
message independent of the remote text, 403 to Forbidden and 422 to
InvalidRequest with the remote text (generic fallback), and any other
status or a status-less (network-level) failure to the RemoteError message
carrying the original message; single-request operations surface exactly
this normalization of the remote failure. -/
theorem claim_C3_handleError_status_classes (e : GitHubError) (oc : Octokit)
    (owner repo path : String) (ref : Option String) (q : String) :
    (e.status = some 404 →
      GitHubTool.handleError e = "Resource not found: " ++ jsOr e.responseMessage "Not found")
    ∧ (e.status = some 401 →
      GitHubTool.handleError e = "Authentication failed. Check your GitHub token.")
    ∧ (e.status = some 403 →
      GitHubTool.handleError e = "Access forbidden: " ++ jsOr e.responseMessage "Forbidden")
    ∧ (e.status = some 422 →
      GitHubTool.handleError e = "Invalid request: " ++ jsOr e.responseMessage "Unprocessable entity")
    ∧ ((∀ s : Nat, e.status = some s → s ≠ 404 ∧ s ≠ 401 ∧ s ≠ 403 ∧ s ≠ 422) →
      GitHubTool.handleError e = "GitHub API error: " ++ e.message)
    ∧ (oc.getContent owner repo path ref = Except.error e →
      GitHubTool.getFileContent oc owner repo path ref
          = Except.error (GitHubTool.handleError e)
        ∧ GitHubTool.getRepositoryContents oc owner repo path ref
          = Except.error (GitHubTool.handleError e))
    ∧ (oc.searchCodeApi q 30 = Except.error e →
      GitHubTool.searchCode oc q none none = Except.error (GitHubTool.handleError e)) := by
  refine ⟨?_, ?_, ?_, ?_, ?_, ?_, ?_⟩
  · intro h
    simp [GitHubTool.handleError, h]
  · intro h
    simp [GitHubTool.handleError, h]
  · intro h
    simp [GitHubTool.handleError, h]
  · intro h
    simp [GitHubTool.handleError, h]
  · intro h
    cases hstat : e.status with
    | none => simp [GitHubTool.handleError, hstat]
    | some s =>
      obtain ⟨h404, h401, h403, h422⟩ := h s hstat
      simp [GitHubTool.handleError, hstat, h404, h401, h403, h422]
  · intro h
    constructor
    · unfold GitHubTool.getFileContent
      rw [h]
    · unfold GitHubTool.getRepositoryContents
      rw [h]
  · intro h
    unfold GitHubTool.searchCode
    rw [show GitHubTool.searchCodeQuery q none none = q from rfl, h]

/-- Witness for C3 at concrete errors of every status class, and a concrete
404 surfaced by an operation. -/
theorem claim_C3_witness :
    GitHubTool.handleError { message := "m", status := some 404, responseMessage := some "gone" }
      = "Resource not found: gone"
    ∧ GitHubTool.handleError { message := "m", status := some 401, responseMessage := some "ignored" }
      = "Authentication failed. Check your GitHub token."
    ∧ GitHubTool.handleError { message := "m", status := some 403, responseMessage := none }
      = "Access forbidden: Forbidden"
    ∧ GitHubTool.handleError { message := "m", status := some 422, responseMessage := some "" }
      = "Invalid request: Unprocessable entity"
    ∧ GitHubTool.handleError { message := "boom", status := some 500, responseMessage := some "ignored" }
      = "GitHub API error: boom"
    ∧ GitHubTool.handleError { message := "socket hang up" }
      = "GitHub API error: socket hang up"
    ∧ GitHubTool.getFileContent oc1 "o" "r" "missing" none
      = Except.error (GitHubTool.handleError e404) := by
  refine ⟨?_, ?_, ?_, ?_, ?_, ?_, ?_⟩
  · exact (claim_C3_handleError_status_classes
      { message := "m", status := some 404, responseMessage := some "gone" }
      oc0 "o" "r" "" none "q").1 rfl
  · exact (claim_C3_handleError_status_classes
      { message := "m", status := some 401, responseMessage := some "ignored" }
      oc0 "o" "r" "" none "q").2.1 rfl
  · exact (claim_C3_handleError_status_classes
      { message := "m", status := some 403, responseMessage := none }
      oc0 "o" "r" "" none "q").2.2.1 rfl
  · exact (claim_C3_handleError_status_classes
      { message := "m", status := some 422, responseMessage := some "" }
      oc0 "o" "r" "" none "q").2.2.2.1 rfl
  · exact (claim_C3_handleError_status_classes
      { message := "boom", status := some 500, responseMessage := some "ignored" }
      oc0 "o" "r" "" none "q").2.2.2.2.1
      (by intro s hs; cases hs; exact ⟨by decide, by decide, by decide, by decide⟩)
  · exact (claim_C3_handleError_status_classes
      { message := "socket hang up" }
      oc0 "o" "r" "" none "q").2.2.2.2.1 (by intro s hs; cases hs)
  · exact ((claim_C3_handleError_status_classes e404 oc1 "o" "r" "missing" none "q").2.2.2.2.2.1
      rfl).1

/-- Claim C4: `getFileContent` fails with the locally-built
path-kind-mismatch (InvalidTarget) error when the content response is a
multi-entry listing, while `getRepositoryContents` succeeds there; dually
`getRepositoryContents` fails with the mismatch error on a single-entry
response, where `getFileContent` succeeds (for a `"file"`-typed single
response); the detection inspects only the response shape, not a status
code. -/
theorem claim_C4_invalid_target_tags (oc : Octokit) (owner repo path : String)
    (ref : Option String) :
    (∀ l, oc.getContent owner repo path ref = Except.ok (ContentResponse.listing l) →
      GitHubTool.getFileContent oc owner repo path ref
          = Except.error ("GitHub API error: " ++ ("Path \"" ++ path ++ "\" is a directory, not a file"))
        ∧ GitHubTool.getRepositoryContents oc owner repo path ref = Except.ok l)
    ∧ (∀ d, oc.getContent owner repo path ref = Except.ok (ContentResponse.single d) →
      GitHubTool.getRepositoryContents oc owner repo path ref
          = Except.error ("GitHub API error: " ++ ("Path \"" ++ path ++ "\" is a file, not a directory"))
        ∧ (d.type = "file" →
          GitHubTool.getFileContent oc owner repo path ref
            = Except.ok { name := d.name, path := d.path,
                          content := if d.encoding = "base64" then oc.b64decode d.content
                                     else d.content,
                          encoding := d.encoding, size := d.size, sha := d.sha })) := by
  constructor
  · intro l h
    constructor
    · unfold GitHubTool.getFileContent
      rw [h]
      simp [GitHubTool.handleError]
    · exact getRepositoryContents_listing oc owner repo path ref l h
  · intro d h
    constructor
    · unfold GitHubTool.getRepositoryContents
      rw [h]
      simp [GitHubTool.handleError]
    · intro hf
      unfold GitHubTool.getFileContent
      rw [h]
      simp [hf]

/-- Witness for C4 on the sample remote: the root is a directory, so
`getFileContent` rejects it and `getRepositoryContents` lists it; a file
path shows the dual behavior. -/
theorem claim_C4_witness :
    GitHubTool.getFileContent oc0 "o" "r" "" none
      = Except.error ("GitHub API error: " ++ ("Path \"" ++ "" ++ "\" is a directory, not a file"))
    ∧ GitHubTool.getRepositoryContents oc0 "o" "r" "" none
      = Except.ok [metaA, metaSub, metaLn]
    ∧ GitHubTool.getRepositoryContents oc0 "o" "r" "a.txt" none
      = Except.error ("GitHub API error: " ++ ("Path \"" ++ "a.txt" ++ "\" is a file, not a directory"))
    ∧ GitHubTool.getFileContent oc0 "o" "r" "a.txt" none = Except.ok fcA := by
  have h1 := (claim_C4_invalid_target_tags oc0 "o" "r" "" none).1 [metaA, metaSub, metaLn] rfl
  have h2 := (claim_C4_invalid_target_tags oc0 "o" "r" "a.txt" none).2 rawA rfl
  exact ⟨h1.1, h1.2, h2.1, h2.2 rfl⟩

/-- Claim C5: a successful `getFileContent` returns the base64-decoded body
when the remote delivers the file in base64, and the body unchanged
otherwise, while the returned `encoding` field always equals the remote's
original encoding tag. -/
theorem claim_C5_content_decoding (oc : Octokit) (owner repo path : String)
    (ref : Option String) (d : RawFile)
    (h : oc.getContent owner repo path ref = Except.ok (ContentResponse.single d))
    (hf : d.type = "file") :
    GitHubTool.getFileContent oc owner repo path ref
      = Except.ok { name := d.name, path := d.path,
                    content := if d.encoding = "base64" then oc.b64decode d.content
                               else d.content,
                    encoding := d.encoding, size := d.size, sha := d.sha }
    ∧ (d.encoding = "base64" →
      GitHubTool.getFileContent oc owner repo path ref
        = Except.ok { name := d.name, path := d.path, content := oc.b64decode d.content,
                      encoding := d.encoding, size := d.size, sha := d.sha })
    ∧ (d.encoding ≠ "base64" →
      GitHubTool.getFileContent oc owner repo path ref
        = Except.ok { name := d.name, path := d.path, content := d.content,
                      encoding := d.encoding, size := d.size, sha := d.sha }) := by
  have hmain : GitHubTool.getFileContent oc owner repo path ref
      = Except.ok { name := d.name, path := d.path,
                    content := if d.encoding = "base64" then oc.b64decode d.content
                               else d.content,
                    encoding := d.encoding, size := d.size, sha := d.sha } := by
    unfold GitHubTool.getFileContent
    rw [h]
    simp [hf]
  refine ⟨hmain, ?_, ?_⟩
  · intro henc
    rw [hmain, if_pos henc]
  · intro henc
    rw [hmain, if_neg henc]

/-- Witness for C5: the base64 file is decoded (with its tag preserved) and
the plain-text file is returned unchanged. -/
theorem claim_C5_witness :
    GitHubTool.getFileContent oc0 "o" "r" "a.txt" none
      = Except.ok { name := rawA.name, path := rawA.path, content := oc0.b64decode rawA.content,
                    encoding := rawA.encoding, size := rawA.size, sha := rawA.sha }
    ∧ GitHubTool.getFileContent oc0 "o" "r" "sub/b.txt" none
      = Except.ok { name := rawB.name, path := rawB.path, content := rawB.content,
                    encoding := rawB.encoding, size := rawB.size, sha := rawB.sha }
    ∧ fcA.encoding = "base64" ∧ fcA.content = "hi"
    ∧ fcB.encoding = "utf-8" ∧ fcB.content = "world" := by
  refine ⟨?_, ?_, rfl, rfl, rfl, rfl⟩
  · exact (claim_C5_content_decoding oc0 "o" "r" "a.txt" none rawA rfl rfl).2.1 rfl
  · exact (claim_C5_content_decoding oc0 "o" "r" "sub/b.txt" none rawB rfl rfl).2.2
      (by decide)

/-- Claim C6: `getRepositoryArchive` defaults the packaging format to
zipball when none is given and the ref to `"HEAD"` when none is given,
returns a handle carrying the resolved location, suggested filename, ref
and format, and never consults `fetch` (it resolves the location without
fetching the archive bytes). -/
theorem claim_C6_getRepositoryArchive_defaults (oc : Octokit) (owner repo url : String)
    (fetch2 : String → FetchResponse)
    (h : oc.downloadArchive owner repo "zipball" "HEAD" = Except.ok url) :
    (∀ ref, GitHubTool.getRepositoryArchive oc owner repo none ref
      = GitHubTool.getRepositoryArchive oc owner repo (some "zipball") ref)
    ∧ GitHubTool.getRepositoryArchive oc owner repo none none
      = Except.ok { downloadUrl := url,
                    filename := repo ++ "-" ++ "HEAD" ++ "." ++ "zip",
                    ref := "HEAD", format := "zipball" }
    ∧ (∀ format ref,
        GitHubTool.getRepositoryArchive { oc with fetch := fetch2 } owner repo format ref
          = GitHubTool.getRepositoryArchive oc owner repo format ref) := by
  refine ⟨fun ref => rfl, ?_, fun format ref => rfl⟩
  simp [GitHubTool.getRepositoryArchive, GitHubTool.defaultFormat, jsOr, h]

/-- Witness for C6 on the sample remote. -/
theorem claim_C6_witness :
    GitHubTool.getRepositoryArchive oc0 "o" "r" none none
      = GitHubTool.getRepositoryArchive oc0 "o" "r" (some "zipball") none
    ∧ GitHubTool.getRepositoryArchive oc0 "o" "r" none none
      = Except.ok { downloadUrl := "https://codeload/r/zipball/HEAD",
                    filename := "r-HEAD.zip", ref := "HEAD", format := "zipball" }
    ∧ GitHubTool.getRepositoryArchive { oc0 with fetch := oc1.fetch } "o" "r" none none
      = GitHubTool.getRepositoryArchive oc0 "o" "r" none none := by
  obtain ⟨h1, h2, h3⟩ := claim_C6_getRepositoryArchive_defaults oc0 "o" "r"
    "https://codeload/r/zipball/HEAD" oc1.fetch rfl
  exact ⟨h1 none, h2, h3 none none⟩

/-- Claim C7: `downloadRepositoryArchive` first resolves the archive handle
via `getRepositoryArchive`, then plainly fetches the resolved location: a
non-ok response makes the whole call fail with the (wrapped) DownloadFailed
message carrying the response's status text, and an ok response returns the
full raw byte payload. -/
theorem claim_C7_downloadRepositoryArchive (oc : Octokit) (owner repo : String)
    (format ref : Option String) (handle : RepositoryArchive)
    (hok : GitHubTool.getRepositoryArchive oc owner repo format ref = Except.ok handle) :
    ((oc.fetch handle.downloadUrl).ok = false →
      GitHubTool.downloadRepositoryArchive oc owner repo format ref
        = Except.error ("GitHub API error: " ++ ("Failed to download archive: "
            ++ (oc.fetch handle.downloadUrl).statusText)))
    ∧ ((oc.fetch handle.downloadUrl).ok = true →
      GitHubTool.downloadRepositoryArchive oc owner repo format ref
        = Except.ok (oc.fetch handle.downloadUrl).body) := by
  constructor
  · intro hfail
    simp [GitHubTool.downloadRepositoryArchive, hok, hfail, GitHubTool.rewrapError,
      GitHubTool.handleError, Bind.bind, Except.bind]
  · intro hsucc
    simp [GitHubTool.downloadRepositoryArchive, hok, hsucc, GitHubTool.rewrapError,
      Bind.bind, Except.bind]

/-- Witness for C7: the sample remote with a working fetch returns the
bytes; the one whose fetch always fails surfaces the DownloadFailed
message although the handle resolution succeeded. -/
theorem claim_C7_witness :
    GitHubTool.downloadRepositoryArchive oc0 "o" "r" none none
      = Except.ok [80, 75, 3, 4]
    ∧ GitHubTool.downloadRepositoryArchive oc1 "o" "r" none none
      = Except.error ("GitHub API error: " ++ ("Failed to download archive: " ++ "Forbidden")) := by
  constructor
  · exact (claim_C7_downloadRepositoryArchive oc0 "o" "r" none none
      { downloadUrl := "https://codeload/r/zipball/HEAD", filename := "r-HEAD.zip",
        ref := "HEAD", format := "zipball" } rfl).2 rfl
  · exact (claim_C7_downloadRepositoryArchive oc1 "o" "r" none none
      { downloadUrl := "https://codeload/r/zipball/HEAD", filename := "r-HEAD.zip",
        ref := "HEAD", format := "zipball" } rfl).1 rfl

/-- Claim C8: the query `searchCode` submits is the caller's query with the
exact-repository qualifier appended when both owner and repo are given,
with the account qualifier appended when only owner is given, and unchanged
when neither is given; scoping is purely this textual appending, so a
scoped call equals an unscoped call on the pre-qualified query. -/
theorem claim_C8_searchCode_scoping (oc : Octokit) (query o r : String)
    (ho : o ≠ "") (hr : r ≠ "") :
    GitHubTool.searchCodeQuery query (some o) (some r) = query ++ " repo:" ++ o ++ "/" ++ r
    ∧ GitHubTool.searchCodeQuery query (some o) none = query ++ " user:" ++ o
    ∧ GitHubTool.searchCodeQuery query none none = query
    ∧ (∀ owner repo : Option String,
        GitHubTool.searchCode oc query owner repo
          = GitHubTool.searchCode oc (GitHubTool.searchCodeQuery query owner repo) none none) := by
  refine ⟨?_, ?_, rfl, ?_⟩
  · simp [GitHubTool.searchCodeQuery, jsTruthy, ho, hr]
  · simp [GitHubTool.searchCodeQuery, jsTruthy, ho]
  · intro owner repo
    unfold GitHubTool.searchCode
    rw [show GitHubTool.searchCodeQuery (GitHubTool.searchCodeQuery query owner repo) none none
        = GitHubTool.searchCodeQuery query owner repo from rfl]

/-- Witness for C8 at concrete qualifiers. -/
theorem claim_C8_witness :
    GitHubTool.searchCodeQuery "todo" (some "octo") (some "hello") = "todo repo:octo/hello"
    ∧ GitHubTool.searchCodeQuery "todo" (some "octo") none = "todo user:octo"
    ∧ GitHubTool.searchCodeQuery "todo" none none = "todo"
    ∧ GitHubTool.searchCode oc0 "todo" (some "octo") (some "hello")
      = GitHubTool.searchCode oc0
        (GitHubTool.searchCodeQuery "todo" (some "octo") (some "hello")) none none := by
  obtain ⟨h1, h2, h3, h4⟩ := claim_C8_searchCode_scoping oc0 "todo" "octo" "hello"
    (by decide) (by decide)
  exact ⟨h1, h2, h3, h4 (some "octo") (some "hello")⟩

/-- If the loop succeeds on a prefix of the listing, the loop on the whole
listing processes that prefix first and prepends its files to whatever the
remainder yields. -/
theorem downloadDirectoryLoop_append_ok (oc : Octokit) (owner repo : String)
    (ref : Option String) (fuel : Nat) :
    ∀ (pre rest : List DirectoryContent) (fs : List FileContent),
      GitHubTool.downloadDirectoryLoop oc fuel owner repo ref pre = Except.ok fs →
      GitHubTool.downloadDirectoryLoop oc fuel owner repo ref (pre ++ rest)
        = (GitHubTool.downloadDirectoryLoop oc fuel owner repo ref rest).map
            (fun gs => fs ++ gs) := by
  intro pre
  induction pre with
  | nil =>
    intro rest fs h
    rw [GitHubTool.downloadDirectoryLoop] at h
    injection h with h
    subst h
    rw [List.nil_append]
    cases hr : GitHubTool.downloadDirectoryLoop oc fuel owner repo ref rest <;>
      simp [Except.map]
  | cons item pre ih =>
    intro rest fs h
    rw [GitHubTool.downloadDirectoryLoop] at h
    rw [List.cons_append, GitHubTool.downloadDirectoryLoop]
    by_cases hf : item.type = "file"
    · rw [if_pos hf] at h ⊢
      cases hdf : GitHubTool.downloadFile oc owner repo item.path ref with
      | error msg =>
        rw [hdf] at h
        simp [Bind.bind, Except.bind] at h
      | ok fc =>
        rw [hdf] at h
        cases hp : GitHubTool.downloadDirectoryLoop oc fuel owner repo ref pre with
        | error m2 =>
          rw [hp] at h
          simp [Bind.bind, Except.bind] at h
        | ok fs2 =>
          rw [hp] at h
          simp only [Bind.bind, Except.bind, Except.ok.injEq] at h
          subst h
          simp only [Bind.bind, Except.bind]
          rw [ih rest fs2 hp]
          cases hr : GitHubTool.downloadDirectoryLoop oc fuel owner repo ref rest <;>
            simp [Except.map, Except.bind]
    · by_cases hd : item.type = "dir"
      · rw [if_neg hf, if_pos hd] at h ⊢
        cases hdd : GitHubTool.downloadDirectory oc fuel owner repo item.path ref with
        | error msg =>
          rw [hdd] at h
          simp [Bind.bind, Except.bind] at h
        | ok ds =>
          rw [hdd] at h
          cases hp : GitHubTool.downloadDirectoryLoop oc fuel owner repo ref pre with
          | error m2 =>
            rw [hp] at h
            simp [Bind.bind, Except.bind] at h
          | ok fs2 =>
            rw [hp] at h
            simp only [Bind.bind, Except.bind, Except.ok.injEq] at h
            subst h
            simp only [Bind.bind, Except.bind]
            rw [ih rest fs2 hp]
            cases hr : GitHubTool.downloadDirectoryLoop oc fuel owner repo ref rest <;>
              simp [Except.map, Except.bind]
      · rw [if_neg hf, if_neg hd] at h ⊢
        exact ih rest fs h

/-- Failure of the first failing entry aborts the whole `downloadDirectory`
call: a prefix succeeds, the next entry's nested fetch (file fetch or
recursive directory walk) fails, and the whole call surfaces that nested
failure, re-wrapped by the catch-block of this level; the files of the
prefix are discarded. -/
theorem downloadDirectory_aborts (oc : Octokit) (owner repo path : String)
    (ref : Option String) (fuel : Nat) (pre post : List DirectoryContent)
    (item : DirectoryContent) (fs : List FileContent) (msg : String)
    (hlist : GitHubTool.getRepositoryContents oc owner repo path ref
      = Except.ok (pre ++ item :: post))
    (hpre : GitHubTool.downloadDirectoryLoop oc fuel owner repo ref pre = Except.ok fs)
    (hfail : (item.type = "file"
        ∧ GitHubTool.downloadFile oc owner repo item.path ref = Except.error msg)
      ∨ (item.type = "dir"
        ∧ GitHubTool.downloadDirectory oc fuel owner repo item.path ref = Except.error msg)) :
    GitHubTool.downloadDirectory oc (fuel + 1) owner repo path ref
      = Except.error ("GitHub API error: " ++ msg) := by
  have hitem : GitHubTool.downloadDirectoryLoop oc fuel owner repo ref (item :: post)
      = Except.error msg := by
    rw [GitHubTool.downloadDirectoryLoop]
    rcases hfail with ⟨hf, he⟩ | ⟨hd, he⟩
    · rw [if_pos hf]
      simp only [Bind.bind]
      rw [he]
      rfl
    · rw [if_neg (by rw [hd]; decide), if_pos hd]
      simp only [Bind.bind]
      rw [he]
      rfl
  have hall : GitHubTool.downloadDirectoryLoop oc fuel owner repo ref (pre ++ item :: post)
      = Except.error msg := by
    rw [downloadDirectoryLoop_append_ok oc owner repo ref fuel pre (item :: post) fs hpre,
      hitem]
    rfl
  rw [GitHubTool.downloadDirectory]
  simp only [Bind.bind]
  rw [hlist]
  simp only [Except.bind]
  rw [hall]
  rfl

/-- Claim C2: if any nested listing or file fetch inside `downloadDirectory`
fails, the whole call fails with that nested failure surfaced (re-wrapped by
this level's catch) and no partial sequence is returned: the files fetched
before the failure are discarded. -/
theorem claim_C2_downloadDirectory_aborts (oc : Octokit) (owner repo path : String)
    (ref : Option String) (fuel : Nat) (pre post : List DirectoryContent)
    (item : DirectoryContent) (fs : List FileContent) (msg : String)
    (hlist : GitHubTool.getRepositoryContents oc owner repo path ref
      = Except.ok (pre ++ item :: post))
    (hpre : GitHubTool.downloadDirectoryLoop oc fuel owner repo ref pre = Except.ok fs)
    (hfail : (item.type = "file"
        ∧ GitHubTool.downloadFile oc owner repo item.path ref = Except.error msg)
      ∨ (item.type = "dir"
        ∧ GitHubTool.downloadDirectory oc fuel owner repo item.path ref = Except.error msg)) :
    GitHubTool.downloadDirectory oc (fuel + 1) owner repo path ref
      = Except.error ("GitHub API error: " ++ msg) :=
  downloadDirectory_aborts oc owner repo path ref fuel pre post item fs msg hlist hpre hfail

/-- Witness for C2: on `oc1` the first file downloads fine, the second
404s, and the whole walk fails with no partial result. -/
theorem claim_C2_witness :
    GitHubTool.getRepositoryContents oc1 "o" "r" "" none
      = Except.ok ([metaA] ++ metaMissing :: [])
    ∧ GitHubTool.downloadDirectoryLoop oc1 1 "o" "r" none [metaA] = Except.ok [fcA]
    ∧ metaMissing.type = "file"
    ∧ GitHubTool.downloadFile oc1 "o" "r" metaMissing.path none
      = Except.error "Resource not found: Not Found"
    ∧ GitHubTool.downloadDirectory oc1 2 "o" "r" "" none
      = Except.error ("GitHub API error: " ++ "Resource not found: Not Found") := by
  have h1 : GitHubTool.getRepositoryContents oc1 "o" "r" "" none
      = Except.ok ([metaA] ++ metaMissing :: []) := rfl
  have h2 : GitHubTool.downloadDirectoryLoop oc1 1 "o" "r" none [metaA] = Except.ok [fcA] := by
    rw [GitHubTool.downloadDirectoryLoop]
    rw [if_pos (show metaA.type = "file" from rfl)]
    simp only [Bind.bind]
    rw [show GitHubTool.downloadFile oc1 "o" "r" metaA.path none = Except.ok fcA from rfl]
    simp only [Except.bind]
    rw [GitHubTool.downloadDirectoryLoop]
  have h3 : metaMissing.type = "file" := rfl
  have h4 : GitHubTool.downloadFile oc1 "o" "r" metaMissing.path none
      = Except.error "Resource not found: Not Found" := rfl
  exact ⟨h1, h2, h3, h4,
    claim_C2_downloadDirectory_aborts oc1 "o" "r" "" none 1 [metaA] [] metaMissing [fcA]
      "Resource not found: Not Found" h1 h2 (Or.inl ⟨h3, h4⟩)⟩

/-- Claim C9: every error thrown inside a facade operation goes through the
same status-based normalization before reaching the caller; errors built
locally (path-kind mismatch, archive secondary-fetch failure) and errors
already normalized by a nested call carry no status field, so they surface
re-wrapped under the uncategorized `GitHub API error:` prefix — in
particular a nested 404 inside `downloadDirectory` reaches the caller
double-wrapped, with the NotFound text embedded, not as a NotFound. -/
theorem claim_C9_errors_rewrapped (oc : Octokit) (owner repo path : String)
    (ref : Option String) (fuel : Nat) (item : DirectoryContent) (e : GitHubError) :
    (∀ l, oc.getContent owner repo path ref = Except.ok (ContentResponse.listing l) →
      GitHubTool.getFileContent oc owner repo path ref
        = Except.error ("GitHub API error: "
            ++ ("Path \"" ++ path ++ "\" is a directory, not a file")))
    ∧ (∀ (handle : RepositoryArchive) (format : Option String),
        GitHubTool.getRepositoryArchive oc owner repo format ref = Except.ok handle →
        (oc.fetch handle.downloadUrl).ok = false →
        GitHubTool.downloadRepositoryArchive oc owner repo format ref
          = Except.error ("GitHub API error: " ++ ("Failed to download archive: "
              ++ (oc.fetch handle.downloadUrl).statusText)))
    ∧ (oc.getContent owner repo path ref = Except.ok (ContentResponse.listing [item]) →
       item.type = "file" →
       oc.getContent owner repo item.path ref = Except.error e →
       e.status = some 404 →
       GitHubTool.downloadDirectory oc (fuel + 1) owner repo path ref
         = Except.error ("GitHub API error: "
             ++ ("Resource not found: " ++ jsOr e.responseMessage "Not found"))
       ∧ GitHubTool.handleError e
         = "Resource not found: " ++ jsOr e.responseMessage "Not found") := by
  refine ⟨?_, ?_, ?_⟩
  · intro l h
    unfold GitHubTool.getFileContent
    rw [h]
    simp [GitHubTool.handleError]
  · intro handle format hok hfail
    simp [GitHubTool.downloadRepositoryArchive, hok, hfail, GitHubTool.rewrapError,
      GitHubTool.handleError, Bind.bind, Except.bind]
  · intro hlist hfile hget hs
    have h404 : GitHubTool.handleError e
        = "Resource not found: " ++ jsOr e.responseMessage "Not found" := by
      simp [GitHubTool.handleError, hs]
    have hdf : GitHubTool.downloadFile oc owner repo item.path ref
        = Except.error (GitHubTool.handleError e) := by
      unfold GitHubTool.downloadFile GitHubTool.getFileContent
      rw [hget]
    refine ⟨?_, h404⟩
    have habort := downloadDirectory_aborts oc owner repo path ref fuel [] [] item []
      (GitHubTool.handleError e)
      (getRepositoryContents_listing oc owner repo path ref [item] hlist)
      (by rw [show (([] : List DirectoryContent) : List DirectoryContent)
            = ([] : List DirectoryContent) from rfl];
          rw [GitHubTool.downloadDirectoryLoop])
      (Or.inl ⟨hfile, hdf⟩)
    rw [h404] at habort
    exact habort

/-- Witness for C9: the three re-wrapped shapes at concrete inputs. -/
theorem claim_C9_witness :
    GitHubTool.getFileContent oc2 "o" "r" "" none
      = Except.error ("GitHub API error: "
          ++ ("Path \"" ++ "" ++ "\" is a directory, not a file"))
    ∧ GitHubTool.downloadRepositoryArchive oc2 "o" "r" none none
      = Except.error ("GitHub API error: " ++ ("Failed to download archive: " ++ "Forbidden"))
    ∧ GitHubTool.downloadDirectory oc2 1 "o" "r" "" none
      = Except.error ("GitHub API error: " ++ ("Resource not found: " ++ "Not Found"))
    ∧ GitHubTool.handleError e404 = "Resource not found: " ++ "Not Found" := by
  have h1 := (claim_C9_errors_rewrapped oc2 "o" "r" "" none 0 metaMissing e404).1
    [metaMissing] rfl
  have h2 := (claim_C9_errors_rewrapped oc2 "o" "r" "" none 0 metaMissing e404).2.1
    { downloadUrl := "https://codeload/r/zipball/HEAD", filename := "r-HEAD.zip",
      ref := "HEAD", format := "zipball" } none rfl rfl
  have h3 := (claim_C9_errors_rewrapped oc2 "o" "r" "" none 0 metaMissing e404).2.2
    rfl rfl rfl rfl
  exact ⟨h1, h2, h3.1, h3.2⟩

/-- Claim C1: on every directory tree the remote presents at a path (run
with enough fuel for its depth), `downloadDirectory` returns exactly the
depth-first, listing-order concatenation of one `FileContent` per `"file"`
entry and the recursive results for every `"dir"` entry, with symlink and
submodule entries contributing nothing; on a tree whose file paths are
distinct the result has exactly one entry per file with no duplicates. -/
theorem claim_C1_downloadDirectory_tree (oc : Octokit) (owner repo path : String)
    (ref : Option String) (t : FsTree) (fuel : Nat)
    (hrep : repTree oc owner repo ref path t = true)
    (hfuel : treeDepth t ≤ fuel)
    (hnd : (treePaths t).Nodup) :
    GitHubTool.downloadDirectory oc fuel owner repo path ref = Except.ok (treeFiles oc t)
    ∧ (treeFiles oc t).length = (treePaths t).length
    ∧ (treeFiles oc t).Nodup := by
  refine ⟨downloadDirectory_repTree oc owner repo ref fuel path t hrep hfuel, ?_, ?_⟩
  · rw [← treeFiles_paths oc t, List.length_map]
  · exact List.Nodup.of_map (fun f => f.path)
      (by rw [treeFiles_paths oc t]; exact hnd)

/-- Witness for C1: on the sample depth-2 tree (two files, one
subdirectory, one symlink) the walk returns exactly the two files in
listing order, with no duplicates. -/
theorem claim_C1_witness :
    repTree oc0 "o" "r" none "" t0 = true
    ∧ treeDepth t0 ≤ 2
    ∧ (treePaths t0).Nodup
    ∧ GitHubTool.downloadDirectory oc0 2 "o" "r" "" none = Except.ok (treeFiles oc0 t0)
    ∧ treeFiles oc0 t0 = [fcA, fcB]
    ∧ (treeFiles oc0 t0).length = (treePaths t0).length
    ∧ (treeFiles oc0 t0).Nodup := by
  have h1 : repTree oc0 "o" "r" none "" t0 = true := by decide
  have h2 : treeDepth t0 ≤ 2 := by decide
  have h3 : (treePaths t0).Nodup := by decide
  have hmain := claim_C1_downloadDirectory_tree oc0 "o" "r" "" none t0 2 h1 h2 h3
  exact ⟨h1, h2, h3, hmain.1, by decide, hmain.2.1, hmain.2.2⟩
